import Mathlib

/-!
Shallow embedding of the invoice backend (Express/MySQL + Sequelize variant)
for checking the natural-language specification against the code.

The embedding covers:
* the invoice-number generation hook (`beforeValidate` of the `Invoice`
  model, src/unnamed/part_006), including its JavaScript string primitives
  (`String(n)`, `padStart`, `parseInt`, `split("-").pop()`) and the SQL
  `LIKE 'stem%'` / `ORDER BY invoice_number DESC` query it issues;
* the `POST /api/invoices` handlers (ORM variant src/unnamed/part_003 and
  raw-SQL variant src/routes/invoices.js) with their transaction
  (begin / rollback / commit / release) discipline;
* the payment-detail default-unsetting writes (src/unnamed/part_001 and
  src/unnamed/part_002);
* the dependency-checked deletes of clients (src/routes/clients.js) and
  bill-from addresses (src/unnamed/part_004).
-/

namespace Invoice

/-! ## JavaScript / SQL string primitives -/

/-- Numeric value of a decimal digit character (`c.toNat - '0'.toNat`). -/
def digitVal (c : Char) : Nat := c.toNat - '0'.toNat

/-- Value of a decimal digit string read left to right, as JavaScript
`parseInt` computes it once the digit run is isolated. -/
def valOfDigits (ds : List Char) : Nat :=
  ds.foldl (fun a c => a * 10 + digitVal c) 0

/-- Fuelled digit production, most significant digit first.  With fuel at
least `n` this produces the decimal digits of `n` followed by `acc`. -/
def natDigitsAux : Nat → Nat → List Char → List Char
  | 0, n, acc => Nat.digitChar (n % 10) :: acc
  | fuel + 1, n, acc =>
    if n < 10 then Nat.digitChar n :: acc
    else natDigitsAux fuel (n / 10) (Nat.digitChar (n % 10) :: acc)

/-- Decimal digits of `n`, most significant first. -/
def natDigits (n : Nat) : List Char := natDigitsAux n n []

/-- Embedding of JavaScript `String(n)` / template interpolation for a
non-negative integer: its decimal representation. -/
def jsNatToString (n : Nat) : String := ⟨natDigits n⟩

/-- Embedding of JavaScript `s.padStart(len, c)`: left-pad `s` with `c`
up to length `len` (no-op when `s` is already long enough). -/
def jsPadStart (s : String) (len : Nat) (c : Char) : String :=
  ⟨List.replicate (len - s.data.length) c ++ s.data⟩

/-- Strict lexicographic comparison on character lists; embedding of the
string ordering MySQL uses for `ORDER BY invoice_number DESC` on the ASCII
invoice numbers involved. -/
def lexLt : List Char → List Char → Bool
  | [], [] => false
  | [], _ :: _ => true
  | _ :: _, [] => false
  | a :: as, b :: bs =>
    if a < b then true else if b < a then false else lexLt as bs

/-- Embedding of `ORDER BY s DESC LIMIT 1` over a result list: the
lexicographically greatest string, if any. -/
def sqlMaxString : List String → Option String
  | [] => none
  | s :: rest =>
    match sqlMaxString rest with
    | none => some s
    | some t => if lexLt t.data s.data then some s else some t

/-- Embedding of JavaScript `s.split("-")` on the character list. -/
def splitDash : List Char → List (List Char)
  | [] => [[]]
  | c :: cs =>
    match splitDash cs with
    | [] => [[]]
    | seg :: rest => if c = '-' then [] :: seg :: rest else (c :: seg) :: rest

/-- Embedding of JavaScript `s.split("-").pop()`. -/
def lastSegment (s : String) : String := ⟨(splitDash s.data).getLastD []⟩

/-- Embedding of JavaScript `parseInt` restricted to the non-negative
decimal inputs the hook feeds it: the value of the leading digit run, or
`none` (JavaScript `NaN`) when the string does not start with a digit. -/
def jsParseInt (s : String) : Option Nat :=
  let ds := s.data.takeWhile Char.isDigit
  if ds.isEmpty then none else some (valOfDigits ds)

/-- One-step character matcher used by `likeMatch`. -/
def charsMatch : List Char → List Char → Bool
  | [], _ => true
  | _ :: _, [] => false
  | a :: as, b :: bs => if a = b then charsMatch as bs else false

/-- Embedding of the SQL filter `invoice_number LIKE 'stem%'`: `s` starts
with `stem`. -/
def likeMatch (stem s : String) : Bool := charsMatch stem.data s.data

/-! ## Invoice number generation (src/unnamed/part_006, beforeValidate) -/

/-- The `INV-{year}-{month:2digits}-` string the hook builds (its local
variable for the month marker). -/
def invoiceStem (year month : Nat) : String :=
  "INV-" ++ jsNatToString year ++ "-" ++ jsPadStart (jsNatToString month) 2 '0' ++ "-"

/-- `String(nextNumber).padStart(4, "0")` from the hook. -/
def paddedSuffix (k : Nat) : String := jsPadStart (jsNatToString k) 4 '0'

/-- The body of the hook's `try` block: query the lexicographically
greatest existing invoice number matching the month stem, increment its
trailing `-`-separated segment (starting at 1 when there is no match), and
pad to 4 digits.  The `none` branch of `jsParseInt` is JavaScript's
`NaN` path (`String(NaN).padStart(4,"0") = "0NaN"`). -/
def generateInvoiceNumber (existing : List String) (year month : Nat) : String :=
  let stem := invoiceStem year month
  let matching := existing.filter (fun s => likeMatch stem s)
  match sqlMaxString matching with
  | none => stem ++ paddedSuffix 1
  | some last =>
    match jsParseInt (lastSegment last) with
    | some k => stem ++ paddedSuffix (k + 1)
    | none => stem ++ jsPadStart "NaN" 4 '0'

/-- The `beforeValidate` hook of the `Invoice` model: keep an explicit
number; otherwise generate one, falling back to `INV-{epoch-millis}` when
the generation (its query) throws (`genFails`). -/
def beforeValidate (invoiceNumber : Option String) (genFails : Bool)
    (existing : List String) (year month epochMillis : Nat) : String :=
  match invoiceNumber with
  | some n => n
  | none =>
    if genFails then "INV-" ++ jsNatToString epochMillis
    else generateInvoiceNumber existing year month

/-! ## Data model (tables the verified claims touch)

Rows keep the columns the claims refer to; date, money and status columns
of `invoices` are carried through the handlers untouched and are omitted
from the row records.  `invoices.invoice_number` carries a global `UNIQUE`
constraint (src/config/database.js and `unique: true` in
src/unnamed/part_006); the uniqueness check is part of `insertInvoice`. -/

structure ClientRow where
  id : Nat
  deriving DecidableEq, Repr

structure BillFromRow where
  id : Nat
  userId : Nat
  deriving DecidableEq, Repr

structure InvoiceRow where
  id : Nat
  userId : Nat
  clientId : Nat
  invoiceNumber : String
  billFromId : Option Nat
  deriving DecidableEq, Repr

structure ItemRow where
  invoiceId : Nat
  description : String
  quantity : Nat
  unitPrice : Int
  total : Int
  deriving DecidableEq, Repr

/-- The relational store.  `nextInvoiceId` models the `AUTO_INCREMENT`
counter of the `invoices` table. -/
structure Store where
  clients : List ClientRow
  billFromAddresses : List BillFromRow
  invoices : List InvoiceRow
  invoiceItems : List ItemRow
  nextInvoiceId : Nat
  deriving DecidableEq, Repr

/-- A line item of the request body, with a storage-layer failure flag
injecting "this row is malformed at the storage layer, its INSERT
throws". -/
structure ItemReq where
  description : String
  quantity : Nat
  unitPrice : Int
  total : Int
  insertFails : Bool
  deriving DecidableEq, Repr

/-- Request body of `POST /api/invoices` (fields the claims touch). -/
structure CreateReq where
  invoiceNumber : Option String
  clientId : Nat
  billFromId : Option Nat
  items : List ItemReq
  deriving DecidableEq, Repr

/-- Environment of one creation request: the clock the hook reads and the
injected failure points (parent insert, commit, the hook's query, and the
rollback issued from the catch block). -/
structure CreateEnv where
  year : Nat
  month : Nat
  epochMillis : Nat
  genFails : Bool
  invoiceInsertFails : Bool
  commitFails : Bool
  rollbackFails : Bool
  deriving DecidableEq, Repr

/-- Responses of `POST /api/invoices`. -/
inductive CreateResp where
  | created (id : Nat) (number : String)
  | conflictDuplicate
  | badClient
  | badBillFrom
  | serverError
  deriving DecidableEq, Repr

/-- HTTP status code of each response. -/
def CreateResp.status : CreateResp → Nat
  | .created _ _ => 201
  | .conflictDuplicate => 409
  | .badClient => 400
  | .badBillFrom => 400
  | .serverError => 500

/-! ## Transaction model

A transaction handle: `base` is the committed database (what a rollback
restores), `current` is the state the connection sees inside the open
transaction.  `begin` snapshots, writes act on `current` only. -/

structure Txn where
  base : Store
  current : Store
  deriving DecidableEq, Repr

def Txn.begin (s : Store) : Txn := ⟨s, s⟩

def Txn.rollback (t : Txn) : Store := t.base

def Txn.commit (t : Txn) : Store := t.current

/-! ## POST /api/invoices gates and writes -/

/-- `SELECT id FROM invoices WHERE invoice_number = ? AND user_id = ?`
(the application-level duplicate check, scoped to the requesting user). -/
def dupCheck (s : Store) (u : Nat) (n : String) : Bool :=
  s.invoices.any (fun r => r.invoiceNumber = n && r.userId = u)

/-- `SELECT id FROM clients WHERE id = ?` (no user scoping). -/
def clientExists (s : Store) (cid : Nat) : Bool :=
  s.clients.any (fun c => c.id = cid)

/-- `SELECT id FROM bill_from_addresses WHERE id = ? AND user_id = ?`. -/
def billFromOk (s : Store) (u : Nat) (b : Nat) : Bool :=
  s.billFromAddresses.any (fun a => a.id = b && a.userId = u)

/-- The optional duplicate gate of the ORM variant: runs the per-user
duplicate check only when an explicit invoice number was supplied. -/
def dupGate (s : Store) (u : Nat) : Option String → Bool
  | none => false
  | some n => dupCheck s u n

/-- The optional bill-from gate of the ORM variant: rejects when a
bill-from id was supplied and does not resolve for the requesting user. -/
def billFromGate (s : Store) (u : Nat) : Option Nat → Bool
  | none => false
  | some b => !billFromOk s u b

/-- `INSERT INTO invoices ...` inside the transaction: fails when the
injected storage failure fires or when the global `UNIQUE` constraint on
`invoice_number` is violated; otherwise appends the row (id from the
auto-increment counter) and returns the new id. -/
def insertInvoice (t : Txn) (u : Nat) (req : CreateReq) (number : String)
    (fails : Bool) : Option (Txn × Nat) :=
  if fails then none
  else if t.current.invoices.any (fun r => r.invoiceNumber = number) then none
  else
    let invId := t.current.nextInvoiceId
    some ({ t with current :=
      { t.current with
        invoices := { id := invId, userId := u, clientId := req.clientId,
                      invoiceNumber := number, billFromId := req.billFromId } :: t.current.invoices,
        nextInvoiceId := invId + 1 } }, invId)

/-- The `for (const item of items)` insert loop: inserts the rows in input
order, stopping (throwing) at the first failing item. -/
def insertItems (t : Txn) (invId : Nat) : List ItemReq → Option Txn
  | [] => some t
  | it :: rest =>
    if it.insertFails then none
    else
      insertItems
        { t with current :=
          { t.current with invoiceItems :=
            t.current.invoiceItems ++
              [{ invoiceId := invId, description := it.description,
                 quantity := it.quantity, unitPrice := it.unitPrice,
                 total := it.total }] } }
        invId rest

/-- The write sequence of `POST /api/invoices` (ORM variant) once the
gates have passed: let the `beforeValidate` hook resolve the invoice
number, insert the invoice and its items, commit; roll back on any
failure. -/
def createCore (store : Store) (u : Nat) (req : CreateReq) (env : CreateEnv) :
    CreateResp × Store :=
  let t := Txn.begin store
  let number := beforeValidate req.invoiceNumber env.genFails
    (t.current.invoices.map (fun r => r.invoiceNumber)) env.year env.month env.epochMillis
  match insertInvoice t u req number env.invoiceInsertFails with
  | none => (.serverError, t.rollback)
  | some (t1, invId) =>
    match insertItems t1 invId req.items with
    | none => (.serverError, t1.rollback)
    | some t2 =>
      if env.commitFails then (.serverError, t2.rollback)
      else (.created invId number, t2.commit)

/-- `POST /api/invoices`, ORM variant (src/unnamed/part_003): open a
transaction, run the duplicate / client / bill-from gates (the duplicate
gate only when an explicit number was supplied, the bill-from gate only
when a bill-from id was supplied), then run the write sequence.  Every
failure path rolls the transaction back. -/
def postInvoice (store : Store) (u : Nat) (req : CreateReq) (env : CreateEnv) :
    CreateResp × Store :=
  let t := Txn.begin store
  if dupGate t.current u req.invoiceNumber then
    (.conflictDuplicate, t.rollback)
  else if !clientExists t.current req.clientId then
    (.badClient, t.rollback)
  else if billFromGate t.current u req.billFromId then
    (.badBillFrom, t.rollback)
  else createCore store u req env

/-! ## POST /api/invoices, raw-SQL variant (src/routes/invoices.js)

This variant acquires a pooled connection, runs the same gates (explicit
invoice number and bill-from id are mandatory in its schema), and wraps
everything in `try { ... } catch { rollback; 500 } finally { release }`.
The `tryCatchFinally` combinator captures the JavaScript semantics: the
catch handler runs only on a thrown body, and the finally action runs on
every exit, including when the catch handler itself throws. -/

inductive JsOutcome (α : Type) where
  | normal (a : α)
  | thrown (e : Nat)
  deriving DecidableEq, Repr

def tryCatchFinally {α σ : Type} (body : σ → JsOutcome α × σ)
    (onErr : Nat → σ → JsOutcome α × σ) (fin : σ → σ) (s : σ) :
    JsOutcome α × σ :=
  let (r, s1) := body s
  let (r2, s2) :=
    match r with
    | .normal a => (JsOutcome.normal a, s1)
    | .thrown e => onErr e s1
  (r2, fin s2)

/-- Connection state of the raw handler: the committed database and
whether `connection.release()` has run. -/
structure RawState where
  db : Store
  released : Bool
  deriving DecidableEq, Repr

/-- Request body of the raw-SQL variant (number and bill-from id are
required there). -/
structure RawCreateReq where
  invoiceNumber : String
  clientId : Nat
  billFromId : Nat
  items : List ItemReq
  deriving DecidableEq, Repr

/-- The committed database after a successful raw-variant creation. -/
def applyCreate (s : Store) (u : Nat) (req : RawCreateReq) : Store :=
  let invId := s.nextInvoiceId
  { s with
    invoices := { id := invId, userId := u, clientId := req.clientId,
                  invoiceNumber := req.invoiceNumber,
                  billFromId := some req.billFromId } :: s.invoices,
    invoiceItems := s.invoiceItems ++
      req.items.map (fun it =>
        { invoiceId := invId, description := it.description,
          quantity := it.quantity, unitPrice := it.unitPrice,
          total := it.total }),
    nextInvoiceId := invId + 1 }

/-- The `try` block of the raw handler.  Uncommitted transaction writes
are invisible in `db`, so the early-return rollbacks and thrown failures
leave `db` untouched; only a successful commit updates it. -/
def rawBody (u : Nat) (req : RawCreateReq) (env : CreateEnv) (s : RawState) :
    JsOutcome CreateResp × RawState :=
  if dupCheck s.db u req.invoiceNumber then (.normal .conflictDuplicate, s)
  else if !clientExists s.db req.clientId then (.normal .badClient, s)
  else if !billFromOk s.db u req.billFromId then (.normal .badBillFrom, s)
  else if env.invoiceInsertFails then (.thrown 0, s)
  else if s.db.invoices.any (fun r => r.invoiceNumber = req.invoiceNumber) then (.thrown 0, s)
  else if req.items.any (fun it => it.insertFails) then (.thrown 0, s)
  else if env.commitFails then (.thrown 0, s)
  else (.normal (.created s.db.nextInvoiceId req.invoiceNumber), { s with db := applyCreate s.db u req })

/-- The `catch` block: `await connection.rollback()` (which may itself
throw) and a 500 response. -/
def rawCatch (env : CreateEnv) (_e : Nat) (s : RawState) :
    JsOutcome CreateResp × RawState :=
  if env.rollbackFails then (.thrown 1, s) else (.normal .serverError, s)

/-- `POST /api/invoices` of src/routes/invoices.js:
`try { ... } catch { rollback; 500 } finally { connection.release() }`. -/
def postInvoiceRaw (store : Store) (u : Nat) (req : RawCreateReq)
    (env : CreateEnv) : JsOutcome CreateResp × RawState :=
  tryCatchFinally (rawBody u req env) (rawCatch env)
    (fun s => { s with released := true }) ⟨store, false⟩

/-! ## Payment details (src/unnamed/part_001 ORM client scope,
src/unnamed/part_002 raw SQL user scope) -/

/-- A `payment_details` row of the client-scoped (ORM) variant.  Method
and account columns are carried through untouched and omitted. -/
structure PaymentRow where
  id : Nat
  clientId : Nat
  invoiceId : Option Nat
  isDefault : Bool
  deriving DecidableEq, Repr

/-- A `payment_details` row of the user-scoped (raw SQL) variant. -/
structure UserPaymentRow where
  id : Nat
  userId : Nat
  isDefault : Bool
  deriving DecidableEq, Repr

/-- Responses of the payment-detail writes. -/
inductive PayResp where
  | createdPay (id : Nat)
  | okPay (id : Nat)
  | badClientPay
  | badInvoicePay
  | notFoundPay
  deriving DecidableEq, Repr

def PayResp.status : PayResp → Nat
  | .createdPay _ => 201
  | .okPay _ => 200
  | .badClientPay => 400
  | .badInvoicePay => 400
  | .notFoundPay => 404

/-- The optional invoice gate of the payment-detail routes: when an
invoice id is supplied it must exist and belong to the client. -/
def invoiceBelongs (invoices : List InvoiceRow) (clientId : Nat) : Option Nat → Bool
  | none => true
  | some i => invoices.any (fun r => r.id = i && r.clientId = clientId)

/-- `UPDATE payment_details SET is_default = FALSE WHERE client_id = ?`. -/
def unsetClientDefaults (rows : List PaymentRow) (cid : Nat) : List PaymentRow :=
  rows.map (fun r => if r.clientId = cid then { r with isDefault := false } else r)

/-- Same unset but excluding one row id
(`WHERE client_id = ? AND id != ?`, used by the update route). -/
def unsetClientDefaultsExcept (rows : List PaymentRow) (cid pid : Nat) :
    List PaymentRow :=
  rows.map (fun r =>
    if r.clientId = cid ∧ r.id ≠ pid then { r with isDefault := false } else r)

/-- `POST /api/payment-details` (ORM, client scope, src/unnamed/part_001):
verify the client, verify an optional invoice belongs to that client,
unset sibling defaults when `isDefault` is set, then insert.  `newId`
models the auto-increment id of the inserted row. -/
def postPaymentDetail (clients : List ClientRow) (invoices : List InvoiceRow)
    (rows : List PaymentRow) (clientId : Nat) (invoiceId : Option Nat)
    (isDefault : Bool) (newId : Nat) : PayResp × List PaymentRow :=
  if !clients.any (fun c => c.id = clientId) then (.badClientPay, rows)
  else if !invoiceBelongs invoices clientId invoiceId then
    (.badInvoicePay, rows)
  else
    let rows1 := if isDefault then unsetClientDefaults rows clientId else rows
    (.createdPay newId,
      rows1 ++ [{ id := newId, clientId := clientId, invoiceId := invoiceId,
                  isDefault := isDefault }])

/-- `PUT /api/payment-details/:id` (ORM, client scope,
src/unnamed/part_001): same gates, unset sibling defaults except the
target, then update the target row (404 when no row matched; note the
unset is not rolled back in that case — the route has no transaction). -/
def putPaymentDetail (clients : List ClientRow) (invoices : List InvoiceRow)
    (rows : List PaymentRow) (pid clientId : Nat) (invoiceId : Option Nat)
    (isDefault : Bool) : PayResp × List PaymentRow :=
  if !clients.any (fun c => c.id = clientId) then (.badClientPay, rows)
  else if !invoiceBelongs invoices clientId invoiceId then
    (.badInvoicePay, rows)
  else
    let rows1 := if isDefault then unsetClientDefaultsExcept rows clientId pid else rows
    if !rows1.any (fun r => r.id = pid) then (.notFoundPay, rows1)
    else
      (.okPay pid,
        rows1.map (fun r =>
          if r.id = pid then
            { id := pid, clientId := clientId, invoiceId := invoiceId,
              isDefault := isDefault }
          else r))

/-- `POST /api/payment-details` (raw SQL, user scope,
src/unnamed/part_002): unset the user's defaults when `isDefault` is set,
then insert (this variant has no gates). -/
def postPaymentDetailUser (rows : List UserPaymentRow) (u : Nat)
    (isDefault : Bool) (newId : Nat) : PayResp × List UserPaymentRow :=
  let rows1 :=
    if isDefault then
      rows.map (fun r => if r.userId = u then { r with isDefault := false } else r)
    else rows
  (.createdPay newId, rows1 ++ [{ id := newId, userId := u, isDefault := isDefault }])

/-! ## Dependency-checked deletes (src/routes/clients.js DELETE,
src/unnamed/part_004 DELETE) -/

/-- Responses of the delete routes. -/
inductive DeleteResp where
  | deleted
  | conflictDependency
  | notFoundRow
  deriving DecidableEq, Repr

/-- HTTP status code of each delete response, as the routes send them
(the dependency refusal is sent with `res.status(400)`). -/
def DeleteResp.status : DeleteResp → Nat
  | .deleted => 200
  | .conflictDependency => 400
  | .notFoundRow => 404

/-- `DELETE /api/clients/:id` (src/routes/clients.js): refuse when any
invoice references the client, else delete; 404 when nothing matched. -/
def deleteClient (s : Store) (cid : Nat) : DeleteResp × Store :=
  if s.invoices.any (fun i => i.clientId = cid) then (.conflictDependency, s)
  else if !s.clients.any (fun c => c.id = cid) then (.notFoundRow, s)
  else (.deleted, { s with clients := s.clients.filter (fun c => c.id ≠ cid) })

/-- `DELETE /api/bill-from-addresses/:id` (src/unnamed/part_004): refuse
when any of the user's invoices references the address, else delete the
user's address row; 404 when nothing matched. -/
def deleteBillFrom (s : Store) (u : Nat) (bid : Nat) : DeleteResp × Store :=
  if s.invoices.any (fun i => i.billFromId = some bid && i.userId = u) then
    (.conflictDependency, s)
  else if !s.billFromAddresses.any (fun a => a.id = bid && a.userId = u) then
    (.notFoundRow, s)
  else
    (.deleted,
      { s with billFromAddresses :=
          s.billFromAddresses.filter (fun a => ¬(a.id = bid ∧ a.userId = u)) })

/-! ## Arithmetic facts about the decimal digit primitives -/

/-! ## Iteration and concrete scenario definitions

Helpers for the iterated-creation property and the concrete stores,
requests and environments used by the witness and counterexample
theorems. -/

/-- The invoice numbers a fresh month `y`/`m` accumulates after `n`
successful auto-numbered creations, newest first. -/
def stemNumbers (y m n : Nat) : List String :=
  (List.range n).reverse.map (fun i => invoiceStem y m ++ paddedSuffix (i + 1))

/-- Numbers produced by `k` successive auto-numbered creations (no
explicit number, generation succeeding), each committed before the next;
the store lists the newest number first, as `insertInvoice` does. -/
def autoNumbers (y m : Nat) : Nat → List String → List String
  | 0, _ => []
  | k + 1, existing =>
    let n := generateInvoiceNumber existing y m
    n :: autoNumbers y m k (n :: existing)

/-- Hook query input: the invoice numbers the `beforeValidate` query sees
(it filters only on `invoice_number`, never on `user_id`). -/
def hookQueryNumbers (invoices : List InvoiceRow) : List String :=
  invoices.map (fun r => r.invoiceNumber)

def c3Store : Store :=
  { clients := [{ id := 1 }],
    billFromAddresses := [],
    invoices := [],
    invoiceItems := [],
    nextInvoiceId := 1 }

def c3Req : CreateReq :=
  { invoiceNumber := none, clientId := 1, billFromId := none,
    items := [{ description := "work", quantity := 1, unitPrice := 100,
                total := 100, insertFails := false }] }

def c3Env : CreateEnv :=
  { year := 2025, month := 1, epochMillis := 0, genFails := false,
    invoiceInsertFails := false, commitFails := false, rollbackFails := false }

def c1Store : Store :=
  { clients := [{ id := 1 }],
    billFromAddresses := [{ id := 1, userId := 1 }],
    invoices := [],
    invoiceItems := [],
    nextInvoiceId := 1 }

def c1Req : CreateReq :=
  { invoiceNumber := some "INV-A", clientId := 1, billFromId := some 1,
    items := [{ description := "design", quantity := 2, unitPrice := 50,
                total := 100, insertFails := false },
              { description := "hosting", quantity := 1, unitPrice := 15,
                total := 15, insertFails := true }] }

def c1EnvOk : CreateEnv :=
  { year := 2025, month := 1, epochMillis := 0, genFails := false,
    invoiceInsertFails := false, commitFails := false, rollbackFails := false }

def c4Store : Store :=
  { clients := [{ id := 1 }],
    billFromAddresses := [{ id := 1, userId := 1 }],
    invoices := [{ id := 1, userId := 1, clientId := 1,
                   invoiceNumber := "INV-2025-01-0001", billFromId := some 1 }],
    invoiceItems := [],
    nextInvoiceId := 2 }

def c4Req : CreateReq :=
  { invoiceNumber := some "INV-2025-01-0001", clientId := 1, billFromId := some 1,
    items := [] }

def c4RawReq : RawCreateReq :=
  { invoiceNumber := "INV-2025-01-0001", clientId := 1, billFromId := 1,
    items := [] }

def c6StoreB : Store :=
  { clients := [{ id := 1 }],
    billFromAddresses := [{ id := 1, userId := 9 }],
    invoices := [],
    invoiceItems := [],
    nextInvoiceId := 1 }

def c6ReqBadClient : CreateReq :=
  { invoiceNumber := none, clientId := 5, billFromId := none, items := [] }

def c6ReqBadBF : CreateReq :=
  { invoiceNumber := none, clientId := 1, billFromId := some 1, items := [] }

def c6RawReq : RawCreateReq :=
  { invoiceNumber := "INV-B", clientId := 5, billFromId := 1, items := [] }

def c8Store : Store :=
  { clients := [{ id := 1 }],
    billFromAddresses := [{ id := 1, userId := 1 }],
    invoices := [{ id := 1, userId := 1, clientId := 1,
                   invoiceNumber := "INV-2025-01-0001", billFromId := some 1 }],
    invoiceItems := [],
    nextInvoiceId := 2 }

def c10Store : Store :=
  { clients := [{ id := 1 }],
    billFromAddresses := [{ id := 1, userId := 1 }, { id := 2, userId := 2 }],
    invoices := [{ id := 1, userId := 1, clientId := 1,
                   invoiceNumber := "INV-2025-01-0001", billFromId := some 1 }],
    invoiceItems := [],
    nextInvoiceId := 2 }

def c10RawReq : RawCreateReq :=
  { invoiceNumber := "INV-2025-01-0001", clientId := 1, billFromId := 2,
    items := [] }

theorem digitChar_isDigit {d : Nat} (h : d < 10) :
    (Nat.digitChar d).isDigit = true := by
  interval_cases d <;> decide

theorem digitVal_digitChar {d : Nat} (h : d < 10) :
    digitVal (Nat.digitChar d) = d := by
  interval_cases d <;> decide

theorem digitVal_lt_ten {c : Char} (h : c.isDigit = true) : digitVal c < 10 := by
  simp [Char.isDigit] at h
  have hb1 : 48 ≤ c.toNat := h.1
  have hb2 : c.toNat ≤ 57 := h.2
  have h0 : '0'.toNat = 48 := by decide
  simp only [digitVal]
  omega

theorem digitVal_lt_of_lt {a b : Char} (ha : a.isDigit = true)
    (hb : b.isDigit = true) (hlt : a < b) : digitVal a < digitVal b := by
  simp [Char.isDigit] at ha hb
  have ha1 : 48 ≤ a.toNat := ha.1
  have hb1 : 48 ≤ b.toNat := hb.1
  have hv : a.toNat < b.toNat := by
    rw [Char.lt_def] at hlt
    exact hlt
  have h0 : '0'.toNat = 48 := by decide
  simp only [digitVal]
  omega

theorem char_eq_of_not_lt {a b : Char} (h1 : ¬a < b) (h2 : ¬b < a) : a = b :=
  le_antisymm (not_lt.mp h2) (not_lt.mp h1)

theorem isDigit_ne_dash {c : Char} (h : c.isDigit = true) : c ≠ '-' := by
  intro hc
  subst hc
  simp [Char.isDigit] at h

theorem natDigitsAux_foldl (n : Nat) : ∀ fuel acc offset, n ≤ fuel →
    List.foldl (fun a c => a * 10 + digitVal c) offset (natDigitsAux fuel n acc) =
      List.foldl (fun a c => a * 10 + digitVal c)
        (offset * 10 ^ (Nat.log 10 n + 1) + n) acc := by
  induction n using Nat.strong_induction_on with
  | _ n ih =>
    intro fuel acc offset hle
    match fuel with
    | 0 =>
      have hn : n = 0 := by omega
      subst hn
      simp [natDigitsAux, digitVal_digitChar, Nat.log_eq_zero_iff]
    | fuel + 1 =>
      by_cases h10 : n < 10
      · have hlog : Nat.log 10 n = 0 := Nat.log_eq_zero_iff.mpr (Or.inl h10)
        simp [natDigitsAux, h10, digitVal_digitChar h10, hlog]
      · have hdiv : n / 10 < n := Nat.div_lt_self (by omega) (by omega)
        have hfuel : n / 10 ≤ fuel := by omega
        have hlog : Nat.log 10 n = Nat.log 10 (n / 10) + 1 := by
          have h1 := Nat.log_div_base 10 n
          have h2 : 0 < Nat.log 10 n := Nat.log_pos (by omega) (by omega)
          omega
        simp only [natDigitsAux, if_neg h10]
        rw [ih (n / 10) hdiv fuel _ offset hfuel]
        simp only [List.foldl]
        rw [digitVal_digitChar (Nat.mod_lt n (by omega))]
        congr 1
        rw [hlog, pow_succ (10 : Nat) (Nat.log 10 (n / 10) + 1), ← mul_assoc]
        generalize offset * 10 ^ (Nat.log 10 (n / 10) + 1) = A
        omega

theorem natDigitsAux_length (n : Nat) : ∀ fuel acc, n ≤ fuel →
    (natDigitsAux fuel n acc).length = (Nat.log 10 n + 1) + acc.length := by
  induction n using Nat.strong_induction_on with
  | _ n ih =>
    intro fuel acc hle
    match fuel with
    | 0 =>
      have hn : n = 0 := by omega
      subst hn
      simp [natDigitsAux, Nat.log_eq_zero_iff]
      omega
    | fuel + 1 =>
      by_cases h10 : n < 10
      · have hlog : Nat.log 10 n = 0 := Nat.log_eq_zero_iff.mpr (Or.inl h10)
        simp only [natDigitsAux, if_pos h10, List.length_cons, hlog]
        omega
      · have hdiv : n / 10 < n := Nat.div_lt_self (by omega) (by omega)
        have hlog : Nat.log 10 n = Nat.log 10 (n / 10) + 1 := by
          have h1 := Nat.log_div_base 10 n
          have h2 : 0 < Nat.log 10 n := Nat.log_pos (by omega) (by omega)
          omega
        simp only [natDigitsAux, if_neg h10]
        rw [ih (n / 10) hdiv fuel _ (by omega)]
        simp only [hlog, List.length_cons]
        omega

theorem natDigitsAux_digits (n : Nat) : ∀ fuel acc, n ≤ fuel →
    (∀ c ∈ acc, c.isDigit = true) →
    ∀ c ∈ natDigitsAux fuel n acc, c.isDigit = true := by
  induction n using Nat.strong_induction_on with
  | _ n ih =>
    intro fuel acc hle hacc c hc
    match fuel with
    | 0 =>
      simp [natDigitsAux] at hc
      rcases hc with rfl | hc
      · exact digitChar_isDigit (Nat.mod_lt n (by omega))
      · exact hacc c hc
    | fuel + 1 =>
      by_cases h10 : n < 10
      · simp [natDigitsAux, h10] at hc
        rcases hc with rfl | hc
        · exact digitChar_isDigit h10
        · exact hacc c hc
      · have hdiv : n / 10 < n := Nat.div_lt_self (by omega) (by omega)
        simp only [natDigitsAux, if_neg h10] at hc
        refine ih (n / 10) hdiv fuel _ (by omega) ?_ c hc
        intro d hd
        rcases List.mem_cons.mp hd with hEq | hd2
        · subst hEq
          exact digitChar_isDigit (Nat.mod_lt n (by omega))
        · exact hacc d hd2

theorem valOfDigits_natDigits (n : Nat) : valOfDigits (natDigits n) = n := by
  have h := natDigitsAux_foldl n n [] 0 (le_refl n)
  simpa [natDigits, valOfDigits] using h

theorem length_natDigits (n : Nat) :
    (natDigits n).length = Nat.log 10 n + 1 := by
  have h := natDigitsAux_length n n [] (le_refl n)
  simpa [natDigits] using h

theorem natDigits_all_digits (n : Nat) :
    ∀ c ∈ natDigits n, c.isDigit = true :=
  natDigitsAux_digits n n [] (le_refl n) (by intro c hc; simp at hc)

theorem length_natDigits_le {n : Nat} (h : n ≤ 9999) :
    (natDigits n).length ≤ 4 := by
  rw [length_natDigits]
  rcases Nat.eq_zero_or_pos n with rfl | hp
  · simp
  · have hlog : Nat.log 10 n < 4 := Nat.log_lt_of_lt_pow (by omega) (by omega)
    omega

end Invoice
namespace Invoice

/-! ## Value and order facts about digit strings -/

theorem foldl_digits_shift (ds : List Char) : ∀ off : Nat,
    List.foldl (fun a c => a * 10 + digitVal c) off ds =
      off * 10 ^ ds.length + valOfDigits ds := by
  induction ds with
  | nil => intro off; simp [valOfDigits]
  | cons c ds ih =>
    intro off
    simp only [List.foldl, List.length_cons]
    rw [ih (off * 10 + digitVal c)]
    have hv : valOfDigits (c :: ds) = digitVal c * 10 ^ ds.length + valOfDigits ds := by
      simp only [valOfDigits, List.foldl, Nat.zero_mul, Nat.zero_add]
      rw [ih (digitVal c)]
      rfl
    rw [hv]
    ring

theorem valOfDigits_cons (c : Char) (ds : List Char) :
    valOfDigits (c :: ds) = digitVal c * 10 ^ ds.length + valOfDigits ds := by
  simp only [valOfDigits, List.foldl, Nat.zero_mul, Nat.zero_add]
  have := foldl_digits_shift ds (digitVal c)
  simpa [valOfDigits] using this

theorem valOfDigits_lt (ds : List Char) (h : ∀ c ∈ ds, c.isDigit = true) :
    valOfDigits ds < 10 ^ ds.length := by
  induction ds with
  | nil => simp [valOfDigits]
  | cons c ds ih =>
    rw [valOfDigits_cons]
    have h1 : digitVal c < 10 := digitVal_lt_ten (h c (by simp))
    have h2 : valOfDigits ds < 10 ^ ds.length := ih (fun d hd => h d (by simp [hd]))
    have h3 : (digitVal c + 1) * 10 ^ ds.length ≤ 10 * 10 ^ ds.length :=
      Nat.mul_le_mul_right _ (by omega)
    have h4 : (digitVal c + 1) * 10 ^ ds.length
        = digitVal c * 10 ^ ds.length + 10 ^ ds.length := by ring
    have h5 : (10 : Nat) * 10 ^ ds.length = 10 ^ (ds.length + 1) := by ring
    simp only [List.length_cons]
    omega

theorem lexLt_irrefl (xs : List Char) : lexLt xs xs = false := by
  induction xs with
  | nil => rfl
  | cons a as ih => simp [lexLt, lt_irrefl, ih]

theorem lexLt_trans : ∀ xs ys zs : List Char,
    lexLt xs ys = true → lexLt ys zs = true → lexLt xs zs = true := by
  intro xs
  induction xs with
  | nil =>
    intro ys zs h1 h2
    cases ys with
    | nil => simp [lexLt] at h1
    | cons y ys =>
      cases zs with
      | nil => simp [lexLt] at h2
      | cons z zs => simp [lexLt]
  | cons a as ih =>
    intro ys zs h1 h2
    cases ys with
    | nil => simp [lexLt] at h1
    | cons y ys =>
      cases zs with
      | nil => simp [lexLt] at h2
      | cons z zs =>
        simp only [lexLt] at h1 h2 ⊢
        by_cases hay : a < y
        · by_cases hyz : y < z
          · simp [lt_trans hay hyz]
          · by_cases hzy : z < y
            · simp [hyz, hzy] at h2
            · have hEq : y = z := char_eq_of_not_lt hyz hzy
              subst hEq
              simp [hay]
        · by_cases hya : y < a
          · simp [hay, hya] at h1
          · have hEq : a = y := char_eq_of_not_lt hay hya
            subst hEq
            simp only [if_neg hay, lt_irrefl, if_neg (lt_irrefl a)] at h1 ⊢
            by_cases haz : a < z
            · simp [haz]
            · by_cases hza : z < a
              · simp [haz, hza] at h2
              · have hEq2 : a = z := char_eq_of_not_lt haz hza
                subst hEq2
                simp only [if_neg haz, lt_irrefl, if_neg (lt_irrefl a)] at h2 ⊢
                exact ih ys zs h1 h2

theorem lexLt_append_left (p : List Char) : ∀ xs ys,
    lexLt (p ++ xs) (p ++ ys) = lexLt xs ys := by
  induction p with
  | nil => simp
  | cons c p ih => intro xs ys; simp [lexLt, lt_irrefl, ih]

theorem lexLt_eq_val_lt : ∀ xs ys : List Char, xs.length = ys.length →
    (∀ c ∈ xs, c.isDigit = true) → (∀ c ∈ ys, c.isDigit = true) →
    (lexLt xs ys = true ↔ valOfDigits xs < valOfDigits ys) := by
  intro xs
  induction xs with
  | nil =>
    intro ys hlen _ _
    cases ys with
    | nil => simp [lexLt, valOfDigits]
    | cons _ _ => simp at hlen
  | cons a as ih =>
    intro ys hlen hx hy
    cases ys with
    | nil => simp at hlen
    | cons b bs =>
      have hlen2 : as.length = bs.length := by simpa using hlen
      have hada : a.isDigit = true := hx a (by simp)
      have hbdb : b.isDigit = true := hy b (by simp)
      have hxas : ∀ c ∈ as, c.isDigit = true := fun c hc => hx c (by simp [hc])
      have hybs : ∀ c ∈ bs, c.isDigit = true := fun c hc => hy c (by simp [hc])
      rw [valOfDigits_cons, valOfDigits_cons, hlen2]
      have hva : valOfDigits as < 10 ^ bs.length := by
        rw [← hlen2]; exact valOfDigits_lt as hxas
      have hvb : valOfDigits bs < 10 ^ bs.length := valOfDigits_lt bs hybs
      simp only [lexLt]
      by_cases hab : a < b
      · have h1 : digitVal a < digitVal b := digitVal_lt_of_lt hada hbdb hab
        have h3 : (digitVal a + 1) * 10 ^ bs.length ≤ digitVal b * 10 ^ bs.length :=
          Nat.mul_le_mul_right _ (by omega)
        have h4 : (digitVal a + 1) * 10 ^ bs.length
            = digitVal a * 10 ^ bs.length + 10 ^ bs.length := by ring
        have hp : digitVal a * 10 ^ bs.length + valOfDigits as <
            digitVal b * 10 ^ bs.length + valOfDigits bs := by omega
        simp only [if_pos hab]
        simp [hp]
      · by_cases hba : b < a
        · have h1 : digitVal b < digitVal a := digitVal_lt_of_lt hbdb hada hba
          have h3 : (digitVal b + 1) * 10 ^ bs.length ≤ digitVal a * 10 ^ bs.length :=
            Nat.mul_le_mul_right _ (by omega)
          have h4 : (digitVal b + 1) * 10 ^ bs.length
              = digitVal b * 10 ^ bs.length + 10 ^ bs.length := by ring
          have hnp : ¬(digitVal a * 10 ^ bs.length + valOfDigits as <
              digitVal b * 10 ^ bs.length + valOfDigits bs) := by omega
          simp only [if_neg hab, if_pos hba]
          simp [hnp]
        · have hEq : a = b := char_eq_of_not_lt hab hba
          subst hEq
          simp only [if_neg (lt_irrefl a)]
          rw [ih bs hlen2 hxas hybs]
          omega

end Invoice
namespace Invoice

/-! ## Facts about the padded suffix and the hook's string plumbing -/

theorem paddedSuffix_data (k : Nat) :
    (paddedSuffix k).data =
      List.replicate (4 - (natDigits k).length) '0' ++ natDigits k := rfl

theorem natDigits_ne_nil (n : Nat) : natDigits n ≠ [] := by
  have h := length_natDigits n
  intro hc
  rw [hc] at h
  simp at h

theorem paddedSuffix_length {k : Nat} (h : k ≤ 9999) :
    (paddedSuffix k).data.length = 4 := by
  rw [paddedSuffix_data]
  have := length_natDigits_le h
  simp [List.length_replicate]
  omega

theorem paddedSuffix_all_digits (k : Nat) :
    ∀ c ∈ (paddedSuffix k).data, c.isDigit = true := by
  intro c hc
  rw [paddedSuffix_data] at hc
  rcases List.mem_append.mp hc with hrep | hdig
  · have := List.eq_of_mem_replicate hrep
    subst this
    decide
  · exact natDigits_all_digits k c hdig

theorem digitVal_zero_char : digitVal '0' = 0 := by decide

theorem valOfDigits_replicate_zero (ds : List Char) : ∀ m : Nat,
    valOfDigits (List.replicate m '0' ++ ds) = valOfDigits ds := by
  intro m
  induction m with
  | zero => simp
  | succ m ih =>
    simp only [List.replicate_succ, List.cons_append, valOfDigits_cons, ih,
      digitVal_zero_char]
    simp

theorem valOfDigits_paddedSuffix (k : Nat) :
    valOfDigits (paddedSuffix k).data = k := by
  rw [paddedSuffix_data, valOfDigits_replicate_zero, valOfDigits_natDigits]

theorem paddedSuffix_lexLt {a b : Nat} (hab : a < b) (hb : b ≤ 9999) :
    lexLt (paddedSuffix a).data (paddedSuffix b).data = true := by
  refine (lexLt_eq_val_lt _ _ ?_ (paddedSuffix_all_digits a) (paddedSuffix_all_digits b)).mpr ?_
  · rw [paddedSuffix_length (by omega), paddedSuffix_length hb]
  · rw [valOfDigits_paddedSuffix, valOfDigits_paddedSuffix]
    exact hab

theorem jsParseInt_of_digits (ds : List Char) (hne : ds ≠ [])
    (h : ∀ c ∈ ds, c.isDigit = true) :
    jsParseInt ⟨ds⟩ = some (valOfDigits ds) := by
  simp only [jsParseInt]
  rw [List.takeWhile_eq_self_iff.mpr (by simpa using h)]
  simp [List.isEmpty_iff, hne]

theorem jsParseInt_paddedSuffix (k : Nat) :
    jsParseInt (paddedSuffix k) = some k := by
  have hne : (paddedSuffix k).data ≠ [] := by
    rw [paddedSuffix_data]
    simp [natDigits_ne_nil k]
  have h := jsParseInt_of_digits (paddedSuffix k).data hne (paddedSuffix_all_digits k)
  rw [valOfDigits_paddedSuffix] at h
  exact h

/-! ## Facts about splitDash / lastSegment -/

theorem splitDash_ne_nil (cs : List Char) : splitDash cs ≠ [] := by
  induction cs with
  | nil => simp [splitDash]
  | cons c cs ih =>
    simp only [splitDash]
    cases h : splitDash cs with
    | nil => exact absurd h ih
    | cons seg rest => by_cases hc : c = '-' <;> simp [hc]

theorem splitDash_no_dash (cs : List Char) (h : ∀ c ∈ cs, c ≠ '-') :
    splitDash cs = [cs] := by
  induction cs with
  | nil => rfl
  | cons c cs ih =>
    have hc : c ≠ '-' := h c (by simp)
    simp only [splitDash]
    rw [ih (fun d hd => h d (by simp [hd]))]
    simp [hc]

theorem getLastD_irrel {α : Type} (l : List α) (a b : α) (h : l ≠ []) :
    l.getLastD a = l.getLastD b := by
  cases l with
  | nil => simp at h
  | cons x xs => simp [List.getLastD]

theorem splitDash_append_dash_length (xs ys : List Char) :
    2 ≤ (splitDash (xs ++ '-' :: ys)).length := by
  induction xs with
  | nil =>
    simp only [List.nil_append, splitDash]
    cases h : splitDash ys with
    | nil => exact absurd h (splitDash_ne_nil ys)
    | cons seg rest => simp
  | cons c xs ih =>
    simp only [List.cons_append, splitDash]
    cases h : splitDash (xs ++ '-' :: ys) with
    | nil => exact absurd h (splitDash_ne_nil _)
    | cons seg rest =>
      rw [h] at ih
      simp at ih
      by_cases hc : c = '-'
      · simp [hc]
      · simp [hc]
        omega

theorem getLastD_splitDash_append (xs ys : List Char) :
    (splitDash (xs ++ '-' :: ys)).getLastD [] = (splitDash ys).getLastD [] := by
  induction xs with
  | nil =>
    simp only [List.nil_append, splitDash]
    cases h : splitDash ys with
    | nil => exact absurd h (splitDash_ne_nil ys)
    | cons seg rest => simp [List.getLastD]
  | cons c xs ih =>
    simp only [List.cons_append, splitDash]
    cases h : splitDash (xs ++ '-' :: ys) with
    | nil => exact absurd h (splitDash_ne_nil _)
    | cons seg rest =>
      rw [h] at ih
      have hlen := splitDash_append_dash_length xs ys
      rw [h] at hlen
      by_cases hc : c = '-'
      · simp only [if_pos hc]
        rw [← ih]
        simp [List.getLastD]
      · simp only [if_neg hc]
        have hrest : rest ≠ [] := by
          intro hr
          rw [hr] at hlen
          simp at hlen
        rw [← ih]
        simp only [List.getLastD_cons]
        exact getLastD_irrel rest (c :: seg) seg hrest

theorem lastSegment_of_append (body sfx : List Char) (h : ∀ c ∈ sfx, c ≠ '-') :
    lastSegment ⟨body ++ '-' :: sfx⟩ = ⟨sfx⟩ := by
  simp only [lastSegment]
  rw [getLastD_splitDash_append, splitDash_no_dash sfx h]
  simp [List.getLastD]

theorem invoiceStem_data_eq (y m : Nat) :
    (invoiceStem y m).data =
      ("INV-" ++ jsNatToString y ++ "-" ++ jsPadStart (jsNatToString m) 2 '0').data
        ++ ['-'] := rfl

theorem lastSegment_stem_paddedSuffix (y m k : Nat) :
    lastSegment (invoiceStem y m ++ paddedSuffix k) = paddedSuffix k := by
  have hdata : (invoiceStem y m ++ paddedSuffix k).data =
      ("INV-" ++ jsNatToString y ++ "-" ++ jsPadStart (jsNatToString m) 2 '0').data
        ++ '-' :: (paddedSuffix k).data := by
    show (invoiceStem y m).data ++ (paddedSuffix k).data = _
    rw [invoiceStem_data_eq]
    simp
  have hnd : ∀ c ∈ (paddedSuffix k).data, c ≠ '-' :=
    fun c hc => isDigit_ne_dash (paddedSuffix_all_digits k c hc)
  calc lastSegment (invoiceStem y m ++ paddedSuffix k)
      = lastSegment ⟨("INV-" ++ jsNatToString y ++ "-" ++ jsPadStart (jsNatToString m) 2 '0').data
          ++ '-' :: (paddedSuffix k).data⟩ := by
        simp only [lastSegment, hdata]
    _ = ⟨(paddedSuffix k).data⟩ := lastSegment_of_append _ _ hnd
    _ = paddedSuffix k := rfl

end Invoice
namespace Invoice

/-! ## Facts about charsMatch / likeMatch -/

theorem charsMatch_append_self : ∀ p s : List Char, charsMatch p (p ++ s) = true := by
  intro p
  induction p with
  | nil => intro s; rfl
  | cons c p ih => intro s; simp [charsMatch, ih]

theorem likeMatch_append (stem t : String) : likeMatch stem (stem ++ t) = true := by
  show charsMatch stem.data (stem ++ t).data = true
  have : (stem ++ t).data = stem.data ++ t.data := rfl
  rw [this]
  exact charsMatch_append_self stem.data t.data

theorem charsMatch_append_of_le : ∀ p r s : List Char, p.length ≤ r.length →
    charsMatch p (r ++ s) = charsMatch p r := by
  intro p
  induction p with
  | nil => intro r s _; rfl
  | cons c p ih =>
    intro r s hlen
    cases r with
    | nil => simp at hlen
    | cons b r =>
      simp only [List.cons_append, charsMatch]
      by_cases hc : c = b
      · simp only [if_pos hc]
        exact ih r s (by simpa using hlen)
      · simp [hc]

theorem charsMatch_eq_of_length : ∀ p r : List Char, charsMatch p r = true →
    p.length = r.length → p = r := by
  intro p
  induction p with
  | nil =>
    intro r _ hlen
    cases r with
    | nil => rfl
    | cons _ _ => simp at hlen
  | cons c p ih =>
    intro r hm hlen
    cases r with
    | nil => simp at hlen
    | cons b r =>
      simp only [charsMatch] at hm
      by_cases hc : c = b
      · subst hc
        rw [ih r (by simpa [if_pos rfl] using hm) (by simpa using hlen)]
      · simp [hc] at hm

theorem likeMatch_of_ne_stem (stemA stemB t : String)
    (hlen : stemA.data.length = stemB.data.length) (hne : stemA ≠ stemB) :
    likeMatch stemA (stemB ++ t) = false := by
  show charsMatch stemA.data (stemB ++ t).data = false
  have hd : (stemB ++ t).data = stemB.data ++ t.data := rfl
  rw [hd, charsMatch_append_of_le stemA.data stemB.data t.data (by omega)]
  by_contra hcm
  have hcm2 : charsMatch stemA.data stemB.data = true := by
    cases h : charsMatch stemA.data stemB.data
    · exact absurd h hcm
    · rfl
  have hdd := charsMatch_eq_of_length stemA.data stemB.data hcm2 hlen
  apply hne
  cases stemA
  cases stemB
  exact congrArg String.mk hdd

/-! ## Facts about sqlMaxString -/

theorem sqlMaxString_eq_none : ∀ l : List String, sqlMaxString l = none ↔ l = [] := by
  intro l
  cases l with
  | nil => simp [sqlMaxString]
  | cons s rest =>
    simp only [sqlMaxString]
    cases sqlMaxString rest with
    | none => simp
    | some t =>
      by_cases h : lexLt t.data s.data = true
      · simp [h]
      · simp only [Bool.not_eq_true] at h
        simp [h]

theorem sqlMaxString_mem : ∀ (l : List String) (t : String),
    sqlMaxString l = some t → t ∈ l := by
  intro l
  induction l with
  | nil => intro t h; simp [sqlMaxString] at h
  | cons s rest ih =>
    intro t h
    simp only [sqlMaxString] at h
    cases hr : sqlMaxString rest with
    | none =>
      rw [hr] at h
      simp at h
      simp [h]
    | some u =>
      rw [hr] at h
      by_cases hlt : lexLt u.data s.data = true
      · simp [hlt] at h
        simp [h]
      · simp only [Bool.not_eq_true] at hlt
        simp [hlt] at h
        right
        exact h ▸ ih u hr

theorem sqlMaxString_not_lt : ∀ (l : List String) (t : String),
    sqlMaxString l = some t → ∀ y ∈ l, lexLt t.data y.data = false := by
  intro l
  induction l with
  | nil => intro t h; simp [sqlMaxString] at h
  | cons s rest ih =>
    intro t h y hy
    simp only [sqlMaxString] at h
    cases hr : sqlMaxString rest with
    | none =>
      rw [hr] at h
      simp at h
      subst h
      have hrest : rest = [] := (sqlMaxString_eq_none rest).mp hr
      subst hrest
      simp at hy
      subst hy
      exact lexLt_irrefl _
    | some u =>
      rw [hr] at h
      by_cases hlt : lexLt u.data s.data = true
      · simp [hlt] at h
        rcases List.mem_cons.mp hy with rfl | hyr
        · rw [← h]
          exact lexLt_irrefl _
        · cases hsy : lexLt t.data y.data
          · rfl
          · have hus : lexLt u.data t.data = true := by rw [← h]; exact hlt
            have h1 := lexLt_trans u.data t.data y.data hus hsy
            have h2 := ih u hr y hyr
            rw [h1] at h2
            exact absurd h2 (by simp)
      · simp only [Bool.not_eq_true] at hlt
        simp [hlt] at h
        rcases List.mem_cons.mp hy with rfl | hyr
        · rw [← h]
          exact hlt
        · rw [← h]
          exact ih u hr y hyr

theorem sqlMaxString_eq_of_greatest (l : List String) (last : String)
    (hmem : last ∈ l)
    (hmax : ∀ s ∈ l, s = last ∨ lexLt s.data last.data = true) :
    sqlMaxString l = some last := by
  cases h : sqlMaxString l with
  | none =>
    rw [sqlMaxString_eq_none] at h
    subst h
    simp at hmem
  | some t =>
    have ht : t ∈ l := sqlMaxString_mem l t h
    have hnl : lexLt t.data last.data = false := sqlMaxString_not_lt l t h last hmem
    rcases hmax t ht with rfl | hlt
    · rfl
    · rw [hlt] at hnl
      exact absurd hnl (by simp)

theorem sqlMaxString_head_of_max (x : String) (rest : List String)
    (h : ∀ y ∈ rest, lexLt y.data x.data = true) :
    sqlMaxString (x :: rest) = some x := by
  apply sqlMaxString_eq_of_greatest
  · simp
  · intro s hs
    rcases List.mem_cons.mp hs with rfl | hsr
    · exact Or.inl rfl
    · exact Or.inr (h s hsr)

end Invoice
namespace Invoice

/-! ## Characterization of the generator -/

theorem generateInvoiceNumber_no_match (existing : List String) (y m : Nat)
    (h : existing.filter (fun s => likeMatch (invoiceStem y m) s) = []) :
    generateInvoiceNumber existing y m = invoiceStem y m ++ paddedSuffix 1 := by
  simp only [generateInvoiceNumber, h, sqlMaxString]

theorem generateInvoiceNumber_of_greatest (existing : List String) (y m k : Nat)
    (last : String)
    (hmem : last ∈ existing.filter (fun s => likeMatch (invoiceStem y m) s))
    (hmax : ∀ s ∈ existing.filter (fun s => likeMatch (invoiceStem y m) s),
      s = last ∨ lexLt s.data last.data = true)
    (hparse : jsParseInt (lastSegment last) = some k) :
    generateInvoiceNumber existing y m = invoiceStem y m ++ paddedSuffix (k + 1) := by
  have hsql := sqlMaxString_eq_of_greatest _ last hmem hmax
  simp only [generateInvoiceNumber, hsql, hparse]

/-! ## Iterated auto-numbered creation (for the monotone-sequence property) -/

theorem stemNumbers_succ (y m n : Nat) :
    stemNumbers y m (n + 1) =
      (invoiceStem y m ++ paddedSuffix (n + 1)) :: stemNumbers y m n := by
  simp [stemNumbers, List.range_succ]

theorem mem_stemNumbers {y m n : Nat} {s : String}
    (h : s ∈ stemNumbers y m n) :
    ∃ j, 1 ≤ j ∧ j ≤ n ∧ s = invoiceStem y m ++ paddedSuffix j := by
  simp only [stemNumbers, List.mem_map, List.mem_reverse, List.mem_range] at h
  obtain ⟨i, hi, rfl⟩ := h
  exact ⟨i + 1, by omega, by omega, rfl⟩

theorem data_append_string (a b : String) : (a ++ b).data = a.data ++ b.data := rfl

theorem lexLt_stem_paddedSuffix {y m a b : Nat} (hab : a < b) (hb : b ≤ 9999) :
    lexLt (invoiceStem y m ++ paddedSuffix a).data
      (invoiceStem y m ++ paddedSuffix b).data = true := by
  rw [data_append_string, data_append_string, lexLt_append_left]
  exact paddedSuffix_lexLt hab hb

/-- One generation step in a month that currently holds exactly the
numbers `0001 .. n`: the generated number is `n+1`. -/
theorem generate_step (existing : List String) (y m n : Nat) (hn : n ≤ 9999)
    (hfilter : existing.filter (fun s => likeMatch (invoiceStem y m) s) =
      stemNumbers y m n) :
    generateInvoiceNumber existing y m = invoiceStem y m ++ paddedSuffix (n + 1) := by
  cases n with
  | zero =>
    apply generateInvoiceNumber_no_match
    rw [hfilter]
    rfl
  | succ t =>
    apply generateInvoiceNumber_of_greatest existing y m (t + 1)
      (invoiceStem y m ++ paddedSuffix (t + 1))
    · rw [hfilter, stemNumbers_succ]
      simp
    · intro s hs
      rw [hfilter, stemNumbers_succ] at hs
      rcases List.mem_cons.mp hs with rfl | hsr
      · exact Or.inl rfl
      · obtain ⟨j, hj1, hj2, rfl⟩ := mem_stemNumbers hsr
        exact Or.inr (lexLt_stem_paddedSuffix (by omega) (by omega))
    · rw [lastSegment_stem_paddedSuffix]
      exact jsParseInt_paddedSuffix (t + 1)

/-- The filter stays in lockstep: consing the freshly generated number
extends the month's number list by one. -/
theorem filter_cons_generated (existing : List String) (y m n : Nat)
    (hfilter : existing.filter (fun s => likeMatch (invoiceStem y m) s) =
      stemNumbers y m n) :
    ((invoiceStem y m ++ paddedSuffix (n + 1)) :: existing).filter
        (fun s => likeMatch (invoiceStem y m) s) =
      stemNumbers y m (n + 1) := by
  rw [List.filter_cons]
  simp only [likeMatch_append]
  rw [hfilter, stemNumbers_succ]
  simp

/-- `k` successive auto-numbered creations starting from a store whose
month sequence is exactly `0001 .. start` produce the numbers
`start+1, start+2, ..., start+k` in order. -/
theorem autoNumbers_spec (y m : Nat) : ∀ (k : Nat) (existing : List String) (start : Nat),
    start + k ≤ 9999 →
    existing.filter (fun s => likeMatch (invoiceStem y m) s) = stemNumbers y m start →
    autoNumbers y m k existing =
      (List.range k).map (fun i => invoiceStem y m ++ paddedSuffix (start + i + 1)) := by
  intro k
  induction k with
  | zero => intro existing start _ _; rfl
  | succ k ih =>
    intro existing start hle hfilter
    have hgen : generateInvoiceNumber existing y m
        = invoiceStem y m ++ paddedSuffix (start + 1) :=
      generate_step existing y m start (by omega) hfilter
    have hnext := filter_cons_generated existing y m start hfilter
    simp only [autoNumbers, hgen]
    rw [ih ((invoiceStem y m ++ paddedSuffix (start + 1)) :: existing) (start + 1)
      (by omega) hnext]
    rw [List.range_succ_eq_map]
    simp only [List.map_cons, List.map_map]
    have harith : start + 0 + 1 = start + 1 := by omega
    rw [harith]
    congr 1
    apply List.map_congr_left
    intro i _
    simp only [Function.comp]
    congr 2
    omega

end Invoice
namespace Invoice

/-! ## Inversion facts about the transactional writes -/

theorem insertInvoice_inv {t : Txn} {u : Nat} {req : CreateReq} {number : String}
    {fails : Bool} {t1 : Txn} {invId : Nat}
    (h : insertInvoice t u req number fails = some (t1, invId)) :
    t1.base = t.base ∧ invId = t.current.nextInvoiceId ∧
    ({ id := invId, userId := u, clientId := req.clientId,
       invoiceNumber := number, billFromId := req.billFromId } : InvoiceRow)
      ∈ t1.current.invoices ∧
    t1.current.invoiceItems = t.current.invoiceItems ∧
    fails = false ∧
    t.current.invoices.any (fun r => r.invoiceNumber = number) = false := by
  simp only [insertInvoice] at h
  by_cases hf : fails = true
  · simp [hf] at h
  · simp only [Bool.not_eq_true] at hf
    subst hf
    rw [if_neg (by simp : ¬false = true)] at h
    by_cases hg : t.current.invoices.any (fun r => r.invoiceNumber = number) = true
    · simp [hg] at h
    · simp only [Bool.not_eq_true] at hg
      simp [hg] at h
      obtain ⟨ht1, hid⟩ := h
      subst hid
      constructor
      · rw [← ht1]
      · refine ⟨rfl, ?_, ?_, rfl, hg⟩
        · rw [← ht1]
          simp
        · rw [← ht1]

theorem insertItems_spec : ∀ (items : List ItemReq) (t : Txn) (invId : Nat) (t2 : Txn),
    insertItems t invId items = some t2 →
    t2.base = t.base ∧ t2.current.invoices = t.current.invoices ∧
    t2.current.nextInvoiceId = t.current.nextInvoiceId ∧
    (∀ r ∈ t.current.invoiceItems, r ∈ t2.current.invoiceItems) ∧
    (∀ it ∈ items,
      ({ invoiceId := invId, description := it.description, quantity := it.quantity,
         unitPrice := it.unitPrice, total := it.total } : ItemRow)
        ∈ t2.current.invoiceItems) := by
  intro items
  induction items with
  | nil =>
    intro t invId t2 h
    simp only [insertItems] at h
    obtain rfl := Option.some.inj h
    exact ⟨rfl, rfl, rfl, fun r hr => hr, by simp⟩
  | cons it items ih =>
    intro t invId t2 h
    simp only [insertItems] at h
    by_cases hf : it.insertFails = true
    · simp [hf] at h
    · simp only [Bool.not_eq_true] at hf
      rw [if_neg (by simp [hf])] at h
      obtain ⟨hb, hi, hn, hmem, hall⟩ := ih _ invId t2 h
      refine ⟨hb, hi, hn, ?_, ?_⟩
      · intro r hr
        apply hmem
        simp [hr]
      · intro jt hjt
        rcases List.mem_cons.mp hjt with rfl | hjts
        · apply hmem
          simp
        · exact hall jt hjts

theorem insertItems_fail : ∀ (items : List ItemReq) (t : Txn) (invId : Nat),
    (∃ it ∈ items, it.insertFails = true) → insertItems t invId items = none := by
  intro items
  induction items with
  | nil => intro t invId h; simp at h
  | cons it items ih =>
    intro t invId h
    simp only [insertItems]
    by_cases hf : it.insertFails = true
    · simp [hf]
    · simp only [Bool.not_eq_true] at hf
      rw [if_neg (by simp [hf])]
      apply ih
      obtain ⟨jt, hjt, hjf⟩ := h
      rcases List.mem_cons.mp hjt with rfl | hjts
      · exact absurd hjf (by simp [hf])
      · exact ⟨jt, hjts, hjf⟩

/-! ## C9: the connection is released on every exit path -/

theorem tryCatchFinally_state {α σ : Type} (body : σ → JsOutcome α × σ)
    (onErr : Nat → σ → JsOutcome α × σ) (fin : σ → σ) (s : σ) :
    ∃ s2, (tryCatchFinally body onErr fin s).2 = fin s2 := by
  simp only [tryCatchFinally]
  cases (body s).1 with
  | normal a => exact ⟨(body s).2, rfl⟩
  | thrown e => exact ⟨(onErr e (body s).2).2, rfl⟩

/-- C9: for every invoice-creation request against the raw-SQL handler,
the pooled connection is released on every exit path — successful commit,
duplicate rejection, invalid-client rejection, invalid-bill-from
rejection, thrown insert/commit errors, and also when the rollback issued
from the catch block itself throws. -/
theorem c9_connection_always_released (store : Store) (u : Nat)
    (req : RawCreateReq) (env : CreateEnv) :
    (postInvoiceRaw store u req env).2.released = true := by
  obtain ⟨s2, hs2⟩ := tryCatchFinally_state (rawBody u req env) (rawCatch env)
    (fun s => { s with released := true }) (⟨store, false⟩ : RawState)
  simp only [postInvoiceRaw]
  rw [hs2]

end Invoice
namespace Invoice

/-! ## C4, C6, C10: gate behaviour of POST /api/invoices -/

/-- C4: an invoice-creation request carrying an explicit invoice number
already used by an invoice of the same user (the scope the handlers
enforce) is rejected with the duplicate-number Conflict response, HTTP
409, and writes nothing — in the ORM variant and in the raw-SQL
variant. -/
theorem c4_duplicate_number_conflict (store : Store) (u : Nat) (n : String)
    (req : CreateReq) (rreq : RawCreateReq) (env : CreateEnv)
    (hnum : req.invoiceNumber = some n) (hraw : rreq.invoiceNumber = n)
    (hdup : dupCheck store u n = true) :
    postInvoice store u req env = (CreateResp.conflictDuplicate, store) ∧
    postInvoiceRaw store u rreq env =
      (.normal CreateResp.conflictDuplicate, ⟨store, true⟩) ∧
    CreateResp.conflictDuplicate.status = 409 := by
  refine ⟨?_, ?_, rfl⟩
  · have hgate : dupGate store u req.invoiceNumber = true := by
      rw [hnum]
      exact hdup
    simp only [postInvoice, Txn.begin, hgate]
    rfl
  · simp only [postInvoiceRaw, tryCatchFinally, rawBody, hraw, hdup]
    rfl

/-- C6: a creation request whose client id does not resolve is rejected
with the InvalidClient error (HTTP 400) and zero writes; one whose
bill-from id does not exist for the requesting user is rejected with the
InvalidBillFromAddress error (HTTP 400) and zero writes — in both
handler variants (the ORM variant checks the bill-from gate only when a
bill-from id is present). -/
theorem c6_invalid_client_or_billfrom (store : Store) (u : Nat)
    (req : CreateReq) (rreq : RawCreateReq) (env : CreateEnv)
    (hnodup : dupGate store u req.invoiceNumber = false)
    (hnodupRaw : dupCheck store u rreq.invoiceNumber = false) :
    (clientExists store req.clientId = false →
      postInvoice store u req env = (CreateResp.badClient, store)) ∧
    (clientExists store rreq.clientId = false →
      postInvoiceRaw store u rreq env = (.normal CreateResp.badClient, ⟨store, true⟩)) ∧
    (∀ b, clientExists store req.clientId = true → req.billFromId = some b →
      billFromOk store u b = false →
      postInvoice store u req env = (CreateResp.badBillFrom, store)) ∧
    (clientExists store rreq.clientId = true →
      billFromOk store u rreq.billFromId = false →
      postInvoiceRaw store u rreq env = (.normal CreateResp.badBillFrom, ⟨store, true⟩)) ∧
    CreateResp.badClient.status = 400 ∧ CreateResp.badBillFrom.status = 400 := by
  refine ⟨?_, ?_, ?_, ?_, rfl, rfl⟩
  · intro hcl
    simp only [postInvoice, Txn.begin, hnodup, hcl]
    rfl
  · intro hcl
    simp only [postInvoiceRaw, tryCatchFinally, rawBody, hnodupRaw, hcl]
    rfl
  · intro b hcl hb hbf
    have hgate : billFromGate store u req.billFromId = true := by
      rw [hb]
      simp [billFromGate, hbf]
    simp only [postInvoice, Txn.begin, hnodup, hcl, hgate]
    rfl
  · intro hcl hbf
    simp only [postInvoiceRaw, tryCatchFinally, rawBody, hnodupRaw, hcl, hbf]
    rfl

/-- C10: an explicit invoice number already used by a different user's
invoice slips past the per-user duplicate check, the insert then violates
the global uniqueness constraint on `invoices.invoice_number`, and the
handler's catch block answers with the Internal error (HTTP 500), not the
409 Conflict response; nothing is written. -/
theorem c10_cross_user_duplicate_is_500 (store : Store) (u : Nat)
    (rreq : RawCreateReq) (env : CreateEnv)
    (hother : ∃ r ∈ store.invoices, r.invoiceNumber = rreq.invoiceNumber ∧ r.userId ≠ u)
    (hdup : dupCheck store u rreq.invoiceNumber = false)
    (hclient : clientExists store rreq.clientId = true)
    (hbf : billFromOk store u rreq.billFromId = true)
    (hrb : env.rollbackFails = false) :
    postInvoiceRaw store u rreq env = (.normal CreateResp.serverError, ⟨store, true⟩) ∧
    CreateResp.serverError.status = 500 ∧
    CreateResp.serverError ≠ CreateResp.conflictDuplicate := by
  have hglobal : store.invoices.any (fun r => r.invoiceNumber = rreq.invoiceNumber) = true := by
    obtain ⟨r, hr, hrn, _⟩ := hother
    rw [List.any_eq_true]
    exact ⟨r, hr, by simp [hrn]⟩
  refine ⟨?_, rfl, by simp⟩
  by_cases hins : env.invoiceInsertFails = true
  · simp only [postInvoiceRaw, tryCatchFinally, rawBody, hdup, hclient, hbf, hins,
      rawCatch, hrb]
    rfl
  · simp only [Bool.not_eq_true] at hins
    simp only [postInvoiceRaw, tryCatchFinally, rawBody, hdup, hclient, hbf, hins,
      hglobal, rawCatch, hrb]
    rfl

end Invoice
namespace Invoice

theorem postInvoice_gates_passed (store : Store) (u : Nat) (req : CreateReq)
    (env : CreateEnv)
    (hnodup : dupGate store u req.invoiceNumber = false)
    (hclient : clientExists store req.clientId = true)
    (hbf : billFromGate store u req.billFromId = false) :
    postInvoice store u req env = createCore store u req env := by
  simp only [postInvoice, Txn.begin, hnodup, hclient, hbf]
  rfl

theorem createCore_spec (store : Store) (u : Nat) (req : CreateReq)
    (env : CreateEnv) :
    ((env.invoiceInsertFails = true ∨ (∃ it ∈ req.items, it.insertFails = true) ∨
        env.commitFails = true) →
      (createCore store u req env).1 = CreateResp.serverError ∧
      (createCore store u req env).2 = store) ∧
    (∀ resp store2, createCore store u req env = (resp, store2) →
      (∀ id num, resp ≠ CreateResp.created id num) → store2 = store) ∧
    (∀ invId num, (createCore store u req env).1 = CreateResp.created invId num →
      ({ id := invId, userId := u, clientId := req.clientId, invoiceNumber := num,
         billFromId := req.billFromId } : InvoiceRow)
          ∈ (createCore store u req env).2.invoices ∧
      (∀ it ∈ req.items,
        ({ invoiceId := invId, description := it.description, quantity := it.quantity,
           unitPrice := it.unitPrice, total := it.total } : ItemRow)
            ∈ (createCore store u req env).2.invoiceItems)) := by
  simp only [createCore, Txn.begin]
  generalize beforeValidate req.invoiceNumber env.genFails
    (List.map (fun r => r.invoiceNumber) store.invoices)
    env.year env.month env.epochMillis = number
  cases hins : insertInvoice ⟨store, store⟩ u req number env.invoiceInsertFails with
  | none =>
    dsimp only [Txn.rollback]
    refine ⟨fun _ => ⟨rfl, rfl⟩, ?_, ?_⟩
    · intro resp store2 h _
      cases h
      rfl
    · intro invId num h
      simp at h
  | some p =>
    obtain ⟨t1, invId⟩ := p
    dsimp only
    obtain ⟨hbase, hid, hrow, hitems, hflag, hnodupG⟩ := insertInvoice_inv hins
    have hbase2 : t1.base = store := hbase
    cases hit : insertItems t1 invId req.items with
    | none =>
      try rw [hit]
      dsimp only [Txn.rollback]
      refine ⟨fun _ => ⟨rfl, hbase2⟩, ?_, ?_⟩
      · intro resp store2 h _
        cases h
        exact hbase2
      · intro invId2 num2 h
        simp at h
    | some t2 =>
      try rw [hit]
      dsimp only
      obtain ⟨hb2, hi2, hn2, hsup, hall⟩ := insertItems_spec req.items t1 invId t2 hit
      have hb3 : t2.base = store := by rw [hb2, hbase2]
      by_cases hcf : env.commitFails = true
      · rw [if_pos hcf]
        dsimp only [Txn.rollback]
        refine ⟨fun _ => ⟨rfl, hb3⟩, ?_, ?_⟩
        · intro resp store2 h _
          cases h
          exact hb3
        · intro invId2 num2 h
          simp at h
      · rw [if_neg hcf]
        simp only [Bool.not_eq_true] at hcf
        dsimp only [Txn.commit]
        refine ⟨?_, ?_, ?_⟩
        · intro hfail
          rcases hfail with hf | hf | hf
          · rw [hf] at hflag
            exact absurd hflag (by simp)
          · rw [insertItems_fail req.items t1 invId hf] at hit
            exact absurd hit (by simp)
          · rw [hf] at hcf
            exact absurd hcf (by simp)
        · intro resp store2 h hnc
          cases h
          exact absurd rfl (hnc invId number)
        · intro invId2 num2 h
          injection h with h1 h2
          subst h1
          subst h2
          constructor
          · rw [hi2]
            exact hrow
          · intro it hitm
            exact hall it hitm

/-- C1: once the duplicate / client / bill-from gates have passed, any
failure — the parent insert, any line-item insert mid-loop, or the commit
— yields the Internal error and leaves the store exactly as it was (no
Invoice row and no InvoiceItem row remains); more generally every
non-created response leaves the store unchanged, and on success the
Invoice row and all its InvoiceItem rows are present. -/
theorem c1_transaction_atomicity (store : Store) (u : Nat) (req : CreateReq)
    (env : CreateEnv)
    (hnodup : dupGate store u req.invoiceNumber = false)
    (hclient : clientExists store req.clientId = true)
    (hbf : billFromGate store u req.billFromId = false) :
    ((env.invoiceInsertFails = true ∨ (∃ it ∈ req.items, it.insertFails = true) ∨
        env.commitFails = true) →
      (postInvoice store u req env).1 = CreateResp.serverError ∧
      (postInvoice store u req env).2 = store) ∧
    (∀ resp store2, postInvoice store u req env = (resp, store2) →
      (∀ id num, resp ≠ CreateResp.created id num) → store2 = store) ∧
    (∀ invId num, (postInvoice store u req env).1 = CreateResp.created invId num →
      ({ id := invId, userId := u, clientId := req.clientId, invoiceNumber := num,
         billFromId := req.billFromId } : InvoiceRow)
          ∈ (postInvoice store u req env).2.invoices ∧
      (∀ it ∈ req.items,
        ({ invoiceId := invId, description := it.description, quantity := it.quantity,
           unitPrice := it.unitPrice, total := it.total } : ItemRow)
            ∈ (postInvoice store u req env).2.invoiceItems)) := by
  rw [postInvoice_gates_passed store u req env hnodup hclient hbf]
  exact createCore_spec store u req env

end Invoice
namespace Invoice

/-! ## C7: the single-default invariant of payment details -/

theorem filter_unsetClientDefaults (rows : List PaymentRow) (cid : Nat) :
    (unsetClientDefaults rows cid).filter
      (fun r => r.clientId = cid && r.isDefault) = [] := by
  induction rows with
  | nil => rfl
  | cons r rows ih =>
    simp only [unsetClientDefaults, List.map_cons, List.filter_cons] at ih ⊢
    by_cases hc : r.clientId = cid
    · simp only [if_pos hc]
      rw [if_neg (by simp)]
      exact ih
    · simp only [if_neg hc]
      rw [if_neg (by simp [hc])]
      exact ih

theorem filter_unsetUserDefaults (urows : List UserPaymentRow) (u : Nat) :
    ((urows.map (fun r => if r.userId = u then { r with isDefault := false } else r)).filter
      (fun r => r.userId = u && r.isDefault)) = [] := by
  induction urows with
  | nil => rfl
  | cons r rows ih =>
    simp only [List.map_cons, List.filter_cons]
    by_cases hc : r.userId = u
    · simp only [if_pos hc]
      rw [if_neg (by simp)]
      exact ih
    · simp only [if_neg hc]
      rw [if_neg (by simp [hc])]
      exact ih

theorem put_filter_none (cid pid : Nat) (invoiceId : Option Nat) :
    ∀ rows : List PaymentRow, (∀ r ∈ rows, r.id ≠ pid) →
    ((unsetClientDefaultsExcept rows cid pid).map (fun r =>
        if r.id = pid then
          ({ id := pid, clientId := cid, invoiceId := invoiceId,
             isDefault := true } : PaymentRow)
        else r)).filter (fun r => r.clientId = cid && r.isDefault) = [] := by
  intro rows
  induction rows with
  | nil => intro _; rfl
  | cons r rows ih =>
    intro hno
    have hrp : r.id ≠ pid := hno r (by simp)
    have ht : ∀ q ∈ rows, q.id ≠ pid := fun q hq => hno q (by simp [hq])
    have htail := ih ht
    simp only [unsetClientDefaultsExcept] at htail
    simp only [unsetClientDefaultsExcept, List.map_cons, List.filter_cons]
    rw [htail]
    by_cases hc : r.clientId = cid
    · simp [hc, hrp]
    · simp [hc, hrp]

theorem put_filter_found (cid pid : Nat) (invoiceId : Option Nat) :
    ∀ rows : List PaymentRow, (rows.map (fun r => r.id)).Nodup →
    rows.any (fun r => r.id = pid) = true →
    ((unsetClientDefaultsExcept rows cid pid).map (fun r =>
        if r.id = pid then
          ({ id := pid, clientId := cid, invoiceId := invoiceId,
             isDefault := true } : PaymentRow)
        else r)).filter (fun r => r.clientId = cid && r.isDefault) =
      [{ id := pid, clientId := cid, invoiceId := invoiceId, isDefault := true }] := by
  intro rows
  induction rows with
  | nil => intro _ hany; simp at hany
  | cons r rows ih =>
    intro hnd hany
    simp only [List.map_cons, List.nodup_cons] at hnd
    obtain ⟨hrnotin, hndt⟩ := hnd
    by_cases hrp : r.id = pid
    · have hnone : ∀ q ∈ rows, q.id ≠ pid := by
        intro q hq hqp
        exact hrnotin (by rw [hrp, ← hqp]; exact List.mem_map_of_mem _ hq)
      have htail := put_filter_none cid pid invoiceId rows hnone
      simp only [unsetClientDefaultsExcept] at htail
      simp only [unsetClientDefaultsExcept, List.map_cons, List.filter_cons]
      rw [htail]
      simp [hrp]
    · have hany2 : rows.any (fun q => q.id = pid) = true := by
        rcases List.any_eq_true.mp hany with ⟨q, hq, hqp⟩
        rcases List.mem_cons.mp hq with rfl | hqr
        · exact absurd (by simpa using hqp) hrp
        · exact List.any_eq_true.mpr ⟨q, hqr, hqp⟩
      have htail := ih hndt hany2
      simp only [unsetClientDefaultsExcept] at htail
      simp only [unsetClientDefaultsExcept, List.map_cons, List.filter_cons]
      rw [htail]
      by_cases hc : r.clientId = cid
      · simp [hc, hrp]
      · simp [hc, hrp]

theorem unsetClientDefaultsExcept_any_id (rows : List PaymentRow) (cid pid : Nat) :
    (unsetClientDefaultsExcept rows cid pid).any (fun r => r.id = pid) =
      rows.any (fun r => r.id = pid) := by
  induction rows with
  | nil => rfl
  | cons r rows ih =>
    simp only [unsetClientDefaultsExcept, List.map_cons, List.any_cons] at ih ⊢
    by_cases hcond : r.clientId = cid ∧ r.id ≠ pid
    · rw [if_pos hcond]
      simp only [ih]
    · rw [if_neg hcond]
      simp only [ih]

/-- C7: a payment-detail create or update carrying `isDefault = true`
first unsets `is_default` on all sibling rows in the owning scope and
then writes the new row, so afterwards exactly one row of the scope is
the default, namely the row just written — for the client-scoped POST
and PUT routes and for the user-scoped raw-SQL POST route. -/
theorem c7_single_default_invariant
    (clients : List ClientRow) (invoices : List InvoiceRow) (rows : List PaymentRow)
    (urows : List UserPaymentRow) (clientId pid newId u unewId : Nat)
    (invoiceId : Option Nat)
    (hclient : clients.any (fun c => c.id = clientId) = true)
    (hinv : invoiceBelongs invoices clientId invoiceId = true) :
    ((postPaymentDetail clients invoices rows clientId invoiceId true newId).1
        = PayResp.createdPay newId ∧
      (postPaymentDetail clients invoices rows clientId invoiceId true newId).2.filter
          (fun r => r.clientId = clientId && r.isDefault)
        = [{ id := newId, clientId := clientId, invoiceId := invoiceId,
             isDefault := true }]) ∧
    ((rows.map (fun r => r.id)).Nodup → rows.any (fun r => r.id = pid) = true →
      (putPaymentDetail clients invoices rows pid clientId invoiceId true).1
          = PayResp.okPay pid ∧
      (putPaymentDetail clients invoices rows pid clientId invoiceId true).2.filter
          (fun r => r.clientId = clientId && r.isDefault)
        = [{ id := pid, clientId := clientId, invoiceId := invoiceId,
             isDefault := true }]) ∧
    ((postPaymentDetailUser urows u true unewId).1 = PayResp.createdPay unewId ∧
      (postPaymentDetailUser urows u true unewId).2.filter
          (fun r => r.userId = u && r.isDefault)
        = [{ id := unewId, userId := u, isDefault := true }]) := by
  refine ⟨?_, ?_, ?_⟩
  · have h1 : postPaymentDetail clients invoices rows clientId invoiceId true newId =
        (PayResp.createdPay newId,
          unsetClientDefaults rows clientId ++
            [{ id := newId, clientId := clientId, invoiceId := invoiceId,
               isDefault := true }]) := by
      simp [postPaymentDetail, hclient, hinv]
    rw [h1]
    refine ⟨rfl, ?_⟩
    rw [List.filter_append, filter_unsetClientDefaults]
    simp
  · intro hnd hany
    have hfound : (unsetClientDefaultsExcept rows clientId pid).any
        (fun r => r.id = pid) = true := by
      rw [unsetClientDefaultsExcept_any_id]
      exact hany
    have h1 : putPaymentDetail clients invoices rows pid clientId invoiceId true =
        (PayResp.okPay pid,
          (unsetClientDefaultsExcept rows clientId pid).map (fun r =>
            if r.id = pid then
              { id := pid, clientId := clientId, invoiceId := invoiceId,
                isDefault := true }
            else r)) := by
      simp [putPaymentDetail, hclient, hinv, hfound]
    rw [h1]
    exact ⟨rfl, put_filter_found clientId pid invoiceId rows hnd hany⟩
  · have h1 : postPaymentDetailUser urows u true unewId =
        (PayResp.createdPay unewId,
          (urows.map (fun r => if r.userId = u then { r with isDefault := false } else r))
            ++ [{ id := unewId, userId := u, isDefault := true }]) := by
      simp [postPaymentDetailUser]
    rw [h1]
    refine ⟨rfl, ?_⟩
    rw [List.filter_append, filter_unsetUserDefaults]
    simp

/-! ## C8: dependency-blocked deletes -/

/-- C8 amended: deleting a Client or BillFromAddress referenced by an
Invoice (for the bill-from route, one of the requesting user's invoices)
is refused with the dependency error — HTTP 400 in this code, not 409 —
no delete is performed, and the targeted row remains readable. -/
theorem c8_dependency_blocked_delete (store : Store) (cid u bid : Nat) :
    ((∃ i ∈ store.invoices, i.clientId = cid) →
      deleteClient store cid = (DeleteResp.conflictDependency, store) ∧
      DeleteResp.conflictDependency.status = 400 ∧
      (∀ c ∈ store.clients, c ∈ (deleteClient store cid).2.clients)) ∧
    ((∃ i ∈ store.invoices, i.billFromId = some bid ∧ i.userId = u) →
      deleteBillFrom store u bid = (DeleteResp.conflictDependency, store) ∧
      (∀ a ∈ store.billFromAddresses,
        a ∈ (deleteBillFrom store u bid).2.billFromAddresses)) := by
  constructor
  · intro hdep
    have hany : store.invoices.any (fun i => i.clientId = cid) = true := by
      obtain ⟨i, hi, hic⟩ := hdep
      exact List.any_eq_true.mpr ⟨i, hi, by simp [hic]⟩
    have hres : deleteClient store cid = (DeleteResp.conflictDependency, store) := by
      simp only [deleteClient, hany]
      rfl
    exact ⟨hres, rfl, by rw [hres]; intro c hc; exact hc⟩
  · intro hdep
    have hany : store.invoices.any
        (fun i => i.billFromId = some bid && i.userId = u) = true := by
      obtain ⟨i, hi, hib, hiu⟩ := hdep
      exact List.any_eq_true.mpr ⟨i, hi, by simp [hib, hiu]⟩
    have hres : deleteBillFrom store u bid = (DeleteResp.conflictDependency, store) := by
      simp only [deleteBillFrom, hany]
      rfl
    exact ⟨hres, by rw [hres]; intro a ha; exact ha⟩

end Invoice
namespace Invoice

/-! ## C2: the invoice-number generation algorithm -/

/-- C2: when no explicit number is supplied the hook generates
`INV-{year}-{month:2}-` followed by the 4-digit zero-padded suffix 1 when
no existing number matches the month stem, and otherwise 1 plus the
parsed trailing segment of the lexicographically greatest matching
number; when the generation throws, the number falls back to
`INV-{epoch-millis}` and creation proceeds with that number. -/
theorem c2_number_generation (existing : List String) (y m ms : Nat) :
    (existing.filter (fun s => likeMatch (invoiceStem y m) s) = [] →
      beforeValidate none false existing y m ms =
        invoiceStem y m ++ paddedSuffix 1) ∧
    (∀ last k, last ∈ existing.filter (fun s => likeMatch (invoiceStem y m) s) →
      (∀ s ∈ existing.filter (fun s => likeMatch (invoiceStem y m) s),
        s = last ∨ lexLt s.data last.data = true) →
      jsParseInt (lastSegment last) = some k →
      beforeValidate none false existing y m ms =
        invoiceStem y m ++ paddedSuffix (k + 1)) ∧
    beforeValidate none true existing y m ms = "INV-" ++ jsNatToString ms := by
  refine ⟨?_, ?_, rfl⟩
  · intro h
    show generateInvoiceNumber existing y m = _
    exact generateInvoiceNumber_no_match existing y m h
  · intro last k hmem hmax hparse
    show generateInvoiceNumber existing y m = _
    exact generateInvoiceNumber_of_greatest existing y m k last hmem hmax hparse

/-! ## C5: monotone per-month numbering -/

/-- C5: in a month whose stem has no matching invoice number yet, `k`
successive auto-numbered creations (`k ≤ 9999`) produce the numbers with
4-digit zero-padded suffixes `0001, 0002, ..., k` — strictly increasing
from `0001` — and the first auto-numbered creation after a month
boundary (a different stem of the same length, against a store whose
pre-existing numbers also do not match the new stem) starts again at
`0001` under the new stem. -/
theorem c5_monotone_month_sequence (y m k : Nat) (existing : List String)
    (hk : k ≤ 9999)
    (hfresh : existing.filter (fun s => likeMatch (invoiceStem y m) s) = []) :
    autoNumbers y m k existing =
      (List.range k).map (fun i => invoiceStem y m ++ paddedSuffix (i + 1)) ∧
    (autoNumbers y m k existing).map (fun s => jsParseInt (lastSegment s)) =
      (List.range k).map (fun i => some (i + 1)) ∧
    paddedSuffix 1 = "0001" ∧
    (∀ y2 m2, (invoiceStem y2 m2).data.length = (invoiceStem y m).data.length →
      invoiceStem y2 m2 ≠ invoiceStem y m →
      existing.filter (fun s => likeMatch (invoiceStem y2 m2) s) = [] →
      generateInvoiceNumber ((autoNumbers y m k existing).reverse ++ existing) y2 m2 =
        invoiceStem y2 m2 ++ paddedSuffix 1) := by
  have h1 : autoNumbers y m k existing =
      (List.range k).map (fun i => invoiceStem y m ++ paddedSuffix (i + 1)) := by
    have := autoNumbers_spec y m k existing 0 (by omega) (by rw [hfresh]; rfl)
    simpa using this
  refine ⟨h1, ?_, by decide, ?_⟩
  · rw [h1, List.map_map]
    apply List.map_congr_left
    intro i _
    simp only [Function.comp]
    rw [lastSegment_stem_paddedSuffix, jsParseInt_paddedSuffix]
  · intro y2 m2 hlen hne hfresh2
    apply generateInvoiceNumber_no_match
    rw [List.filter_append, hfresh2, List.append_nil]
    rw [List.filter_eq_nil_iff]
    intro s hs
    rw [List.mem_reverse, h1, List.mem_map] at hs
    obtain ⟨i, _, rfl⟩ := hs
    rw [likeMatch_of_ne_stem (invoiceStem y2 m2) (invoiceStem y m) (paddedSuffix (i + 1))
      hlen hne]
    simp

/-! ## C3: the numbering scope is global, not per user -/

/-- C3 counterexample: user 1 creates the month's first invoice and
receives suffix 0001; user 2, who owns no invoice at all, then creates
an invoice in the same month and receives suffix 0002, not 0001 — the
claim that both users receive 0001 fails on this store. -/
theorem c3_counterexample :
    (postInvoice c3Store 1 c3Req c3Env).1 = CreateResp.created 1 "INV-2025-01-0001" ∧
    (postInvoice (postInvoice c3Store 1 c3Req c3Env).2 2 c3Req c3Env).1 =
      CreateResp.created 2 "INV-2025-01-0002" ∧
    CreateResp.created 2 "INV-2025-01-0002" ≠ CreateResp.created 2 "INV-2025-01-0001" := by
  refine ⟨?_, ?_, by decide⟩ <;> rfl

/-- C3 amended: the sequential number is computed globally per month —
the hook's query ignores `user_id`, so reassigning the owners of the
existing invoices never changes the generated number, and a second user's
first invoice of the month continues the global sequence (0002 after
another user's 0001). -/
theorem c3_amended_global_scope :
    (∀ (invoices : List InvoiceRow) (retag : Nat → Nat) (y m : Nat),
      generateInvoiceNumber
        (hookQueryNumbers (invoices.map (fun r => { r with userId := retag r.id }))) y m =
      generateInvoiceNumber (hookQueryNumbers invoices) y m) ∧
    (postInvoice (postInvoice c3Store 1 c3Req c3Env).2 2 c3Req c3Env).1 =
      CreateResp.created 2 "INV-2025-01-0002" := by
  constructor
  · intro invoices retag y m
    congr 1
    simp [hookQueryNumbers, List.map_map, Function.comp]
  · rfl

end Invoice
namespace Invoice

/-! ## Concrete witnesses -/

theorem c1_witness :
    (postInvoice c1Store 1 c1Req c1EnvOk).1 = CreateResp.serverError ∧
    (postInvoice c1Store 1 c1Req c1EnvOk).2 = c1Store := by
  have h := c1_transaction_atomicity c1Store 1 c1Req c1EnvOk
    (by decide) (by decide) (by decide)
  exact h.1 (by decide)

theorem c2_witness :
    beforeValidate none false ["INV-2025-01-0006", "INV-2025-01-0002", "OTHER"]
        2025 1 123 = "INV-2025-01-0007" ∧
    beforeValidate none true [] 2025 1 1736900000000 = "INV-1736900000000" := by
  constructor
  · have h := (c2_number_generation
      ["INV-2025-01-0006", "INV-2025-01-0002", "OTHER"] 2025 1 123).2.1
      "INV-2025-01-0006" 6 (by decide) (by decide) (by decide)
    rw [h]
    decide
  · have h := (c2_number_generation [] 2025 1 1736900000000).2.2
    rw [h]
    decide

theorem c4_witness :
    postInvoice c4Store 1 c4Req c1EnvOk = (CreateResp.conflictDuplicate, c4Store) ∧
    postInvoiceRaw c4Store 1 c4RawReq c1EnvOk =
      (.normal CreateResp.conflictDuplicate, ⟨c4Store, true⟩) ∧
    CreateResp.conflictDuplicate.status = 409 :=
  c4_duplicate_number_conflict c4Store 1 "INV-2025-01-0001" c4Req c4RawReq c1EnvOk
    rfl rfl (by decide)

theorem c5_witness :
    autoNumbers 2025 1 3 [] =
      ["INV-2025-01-0001", "INV-2025-01-0002", "INV-2025-01-0003"] ∧
    generateInvoiceNumber ((autoNumbers 2025 1 3 []).reverse ++ []) 2025 2 =
      invoiceStem 2025 2 ++ paddedSuffix 1 := by
  have h := c5_monotone_month_sequence 2025 1 3 [] (by decide) rfl
  constructor
  · rw [h.1]
    decide
  · exact h.2.2.2 2025 2 (by decide) (by decide) rfl

theorem c6_witness :
    postInvoice c3Store 1 c6ReqBadClient c1EnvOk = (CreateResp.badClient, c3Store) ∧
    postInvoice c6StoreB 1 c6ReqBadBF c1EnvOk = (CreateResp.badBillFrom, c6StoreB) := by
  constructor
  · exact (c6_invalid_client_or_billfrom c3Store 1 c6ReqBadClient c6RawReq c1EnvOk
      (by decide) (by decide)).1 (by decide)
  · exact (c6_invalid_client_or_billfrom c6StoreB 1 c6ReqBadBF c6RawReq c1EnvOk
      (by decide) (by decide)).2.2.1 1 (by decide) rfl (by decide)

theorem c7_witness :
    (postPaymentDetail [{ id := 1 }] []
        [{ id := 1, clientId := 1, invoiceId := none, isDefault := true }]
        1 none true 2).2.filter (fun r => r.clientId = 1 && r.isDefault)
      = [{ id := 2, clientId := 1, invoiceId := none, isDefault := true }] ∧
    (putPaymentDetail [{ id := 1 }] []
        [{ id := 1, clientId := 1, invoiceId := none, isDefault := false },
         { id := 2, clientId := 1, invoiceId := none, isDefault := true }]
        1 1 none true).2.filter (fun r => r.clientId = 1 && r.isDefault)
      = [{ id := 1, clientId := 1, invoiceId := none, isDefault := true }] ∧
    (postPaymentDetailUser [{ id := 1, userId := 1, isDefault := true }]
        1 true 2).2.filter (fun r => r.userId = 1 && r.isDefault)
      = [{ id := 2, userId := 1, isDefault := true }] := by
  refine ⟨?_, ?_, ?_⟩
  · exact (c7_single_default_invariant [{ id := 1 }] []
      [{ id := 1, clientId := 1, invoiceId := none, isDefault := true }]
      [] 1 1 2 1 2 none (by decide) (by decide)).1.2
  · exact ((c7_single_default_invariant [{ id := 1 }] []
      [{ id := 1, clientId := 1, invoiceId := none, isDefault := false },
       { id := 2, clientId := 1, invoiceId := none, isDefault := true }]
      [] 1 1 2 1 2 none (by decide) (by decide)).2.1 (by decide) (by decide)).2
  · exact (c7_single_default_invariant [{ id := 1 }] [] []
      [{ id := 1, userId := 1, isDefault := true }]
      1 1 2 1 2 none (by decide) (by decide)).2.2.2

/-- C8 counterexample: with a client and a bill-from address each
referenced by an invoice, both delete routes refuse — but with HTTP 400,
not the 409 Conflict the claim states. -/
theorem c8_counterexample :
    (∃ i ∈ c8Store.invoices, i.clientId = 1) ∧
    (deleteClient c8Store 1).1.status = 400 ∧
    (deleteClient c8Store 1).1.status ≠ 409 ∧
    (∃ i ∈ c8Store.invoices, i.billFromId = some 1 ∧ i.userId = 1) ∧
    (deleteBillFrom c8Store 1 1).1.status = 400 ∧
    (deleteBillFrom c8Store 1 1).1.status ≠ 409 := by
  decide

theorem c8_witness :
    deleteClient c8Store 1 = (DeleteResp.conflictDependency, c8Store) ∧
    deleteBillFrom c8Store 1 1 = (DeleteResp.conflictDependency, c8Store) := by
  have h := c8_dependency_blocked_delete c8Store 1 1 1
  exact ⟨(h.1 (by decide)).1, (h.2 (by decide)).1⟩

theorem c10_witness :
    postInvoiceRaw c10Store 2 c10RawReq c1EnvOk =
      (.normal CreateResp.serverError, ⟨c10Store, true⟩) ∧
    CreateResp.serverError.status = 500 ∧
    CreateResp.serverError ≠ CreateResp.conflictDuplicate :=
  c10_cross_user_duplicate_is_500 c10Store 2 c10RawReq c1EnvOk
    (by decide) (by decide) (by decide) (by decide) rfl

end Invoice
